import Mathlib

/-!
# js2mqtt: the joystick read loop and the port option

A shallow embedding of `src/js2mqtt.c`: the `-p` branch of the option switch
(lines 155-164), `mosquitto_assert` (lines 105-110) and the read loop of `main`
(lines 205-248), followed by the properties proved about them.

Conventions of the embedding.
* C strings and byte buffers are `List Char`; every character the program
  produces is ASCII, so the number of characters is the number of bytes.
* Machine integers are `Nat` or `Int`; a conversion to a narrower C type is an
  explicit reduction modulo `2 ^ w`.
* The environment is explicit: the outcomes of the successive `read` calls are
  a list, the return codes of the successive `mosquitto_publish` calls are a
  function of the call's position, and the calls the program makes are
  recorded in the state.
-/

namespace Js2mqtt

/-! ## Constants of the headers the program includes -/

/-- Value of `JS_EVENT_BUTTON` in `linux/joystick.h`. -/
def JS_EVENT_BUTTON : Nat := 0x01

/-- Value of `JS_EVENT_AXIS` in `linux/joystick.h`. -/
def JS_EVENT_AXIS : Nat := 0x02

/-- Value of `JS_EVENT_INIT` in `linux/joystick.h`. -/
def JS_EVENT_INIT : Nat := 0x80

/-- Value of `MOSQ_ERR_SUCCESS` in `mosquitto.h`. -/
def MOSQ_ERR_SUCCESS : Int := 0

/-- Value of `EXIT_FAILURE` in `stdlib.h`. -/
def EXIT_FAILURE : Nat := 1

/-- The record `struct js_event` of `linux/joystick.h`:
`__u32 time; __s16 value; __u8 type; __u8 number;`. -/
structure js_event where
  time : Nat
  value : Int
  type : Nat
  number : Nat
  deriving DecidableEq, Repr

/-- The ranges of the four fields of a `struct js_event`. -/
def js_event.wf (e : js_event) : Prop :=
  e.time < 2 ^ 32 ∧ -32768 ≤ e.value ∧ e.value ≤ 32767 ∧ e.type < 256 ∧ e.number < 256

instance (e : js_event) : Decidable e.wf := by
  unfold js_event.wf; infer_instance

/-- Value of `sizeof(struct js_event)`: 4 + 2 + 1 + 1 bytes. -/
def sizeof_js_event : Int := 8

/-! ## The conversions of `snprintf` -/

/-- Decimal digits of `n`, most significant first, prepended to `acc`; the
first argument bounds the number of digits produced. -/
def utoa_go : Nat → Nat → List Char → List Char
  | 0, _, acc => acc
  | fuel + 1, n, acc =>
    if n < 10 then Nat.digitChar n :: acc
    else utoa_go fuel (n / 10) (Nat.digitChar (n % 10) :: acc)

/-- Unsigned decimal conversion (`%u` without flags, width or precision): the
digits of `n` with no leading zero, `0` for zero. -/
def fmt_unsigned (n : Nat) : List Char := utoa_go (n + 1) n []

/-- Signed decimal conversion (`%d` without flags, width or precision). -/
def fmt_signed (v : Int) : List Char :=
  if v < 0 then '-' :: fmt_unsigned v.natAbs else fmt_unsigned v.natAbs

/-- Conversion to `unsigned int` (32 bits), as `%u` reads its argument. -/
def to_uint (n : Nat) : Nat := n % 2 ^ 32

/-- Conversion to `short` (16 bits, two's complement), as `%hd` converts its
promoted argument. -/
def to_short (v : Int) : Int := (v + 32768) % 65536 - 32768

/-- Conversion to `unsigned char`, as `%hhu` converts its promoted argument. -/
def to_uchar (n : Nat) : Nat := n % 256

/-- The `%s` argument of line 229: `e.type & JS_EVENT_BUTTON ? "button" : "axis"`. -/
def type_str (e : js_event) : List Char :=
  if e.type &&& JS_EVENT_BUTTON ≠ 0 then "button".data else "axis".data

/-- The text the format string of line 226 expands to for the arguments of
lines 227-230. -/
def format_payload (e : js_event) : List Char :=
  "\x7b\"time\":".data ++ fmt_unsigned (to_uint e.time) ++
  ",\"value\":".data ++ fmt_signed (to_short e.value) ++
  ",\"type\":\"".data ++ type_str e ++
  "\",\"number\":".data ++ fmt_unsigned (to_uchar e.number) ++ "\x7d".data

/-- The call `snprintf(buf, size, ...)` on the expanded text `full`: the buffer
receives at most `size - 1` characters (then the terminator), and the value
returned is the length of the whole text, truncated or not. -/
def snprintf (size : Nat) (full : List Char) : List Char × Nat :=
  (full.take (size - 1), full.length)

/-! ## The read loop -/

/-- Program arguments the read loop uses: `topic` and `debug`. -/
structure Config where
  topic : List Char
  debug : Bool
  deriving DecidableEq, Repr

/-- The arguments of one `mosquitto_publish(mosq, mid, topic, payloadlen,
payload, qos, retain)` call, in the order of `mosquitto.h`; `mid` is `none` for
the `NULL` of line 241 and `payload` is the content of the buffer passed. -/
structure PublishCall where
  mid : Option Nat
  topic : List Char
  payloadlen : Nat
  payload : List Char
  qos : Nat
  retain : Bool
  deriving DecidableEq, Repr

/-- The bytes a publish call sends: the first `payloadlen` bytes of `payload`. -/
def PublishCall.bytes (c : PublishCall) : List Char := c.payload.take c.payloadlen

/-- Outcome of one `read(fd, &e, sizeof(e))`: the value returned and the
content of `e` afterwards. -/
structure ReadResult where
  ret : Int
  e : js_event
  deriving DecidableEq, Repr

/-- A `read` that returns a whole record. -/
def ReadResult.full (e : js_event) : ReadResult := ⟨sizeof_js_event, e⟩

/-- Whether the process is still in the loop or has called `exit`. -/
inductive Status where
  | running
  | exited (code : Nat)
  deriving DecidableEq, Repr

/-- What the loop has done so far. -/
structure World where
  reads : Nat
  published : List PublishCall
  stdout : List (List Char)
  status : Status
  deriving DecidableEq, Repr

/-- The state on entry to the loop. -/
def World.init : World := ⟨0, [], [], Status.running⟩

/-- The condition of line 217 as C parses it: `==` binds tighter than `&`, so
it is `e.type & ((JS_EVENT_BUTTON | JS_EVENT_AXIS) == 0)`. -/
def filter_cond (type : Nat) : Nat :=
  type &&& (if (JS_EVENT_BUTTON ||| JS_EVENT_AXIS) = 0 then 1 else 0)

/-- The call of lines 239-247 for the record `e`. -/
def publish_call (cfg : Config) (e : js_event) : PublishCall :=
  let r := snprintf 256 (format_payload e)
  { mid := none, topic := cfg.topic, payloadlen := r.2, payload := r.1,
    qos := 0, retain := true }

/-- The line printed by line 235 (`"%.*s\n"`): at most `payloadlen` characters
of the buffer, then a newline. -/
def debug_line (e : js_event) : List Char :=
  let r := snprintf 256 (format_payload e)
  r.1.take r.2 ++ ['\n']

/-- `mosquitto_assert` (lines 105-110): whether the process goes on. -/
def mosquitto_assert (connack_code : Int) : Status :=
  if connack_code ≠ MOSQ_ERR_SUCCESS then Status.exited EXIT_FAILURE else Status.running

/-- The read loop of lines 205-248. `rc k` is the value the `k`-th
`mosquitto_publish` call (counted from 0) returns; the list holds the outcomes
of the successive `read` calls. When the list is used up the process is blocked
in `read` and the state is returned with status `running`. -/
def read_loop (cfg : Config) (rc : Nat → Int) : List ReadResult → World → World
  | [], w => w
  | r :: rs, w =>
    let w1 := { w with reads := w.reads + 1 }
    if r.ret < 0 then { w1 with status := Status.exited EXIT_FAILURE }
    else if r.ret ≠ sizeof_js_event then { w1 with status := Status.exited EXIT_FAILURE }
    else if filter_cond r.e.type ≠ 0 then read_loop cfg rc rs w1
    else
      let w2 := if cfg.debug then { w1 with stdout := w1.stdout ++ [debug_line r.e] } else w1
      let code := rc w2.published.length
      let w3 := { w2 with published := w2.published ++ [publish_call cfg r.e] }
      match mosquitto_assert code with
      | Status.exited c => { w3 with status := Status.exited c }
      | Status.running => read_loop cfg rc rs w3

/-- The loop from its entry state. -/
def run (cfg : Config) (rc : Nat → Int) (reads : List ReadResult) : World :=
  read_loop cfg rc reads World.init

/-- The state after an iteration that read the whole record `e` and called
`mosquitto_publish`, before the value it returned is examined. -/
def after_publish (cfg : Config) (e : js_event) (w : World) : World :=
  { reads := w.reads + 1,
    published := w.published ++ [publish_call cfg e],
    stdout := if cfg.debug then w.stdout ++ [debug_line e] else w.stdout,
    status := w.status }

/-- The state after the records `es` were read and published in turn. -/
def after_all (cfg : Config) (es : List js_event) (w : World) : World :=
  { reads := w.reads + es.length,
    published := w.published ++ es.map (publish_call cfg),
    stdout := if cfg.debug then w.stdout ++ es.map debug_line else w.stdout,
    status := w.status }

/-! ## The `-p` option -/

/-- The C locale's `isspace`: space, `\t`, `\n`, `\v`, `\f`, `\r`. -/
def isspace (c : Char) : Bool :=
  c = ' ' || c = '\t' || c = '\n' || c = '\x0b' || c = '\x0c' || c = '\r'

/-- Value of a decimal digit character. -/
def digit_value (c : Char) : Nat := c.toNat - 48

/-- Value of a sequence of decimal digits, most significant first. -/
def digits_value (ds : List Char) : Nat := ds.foldl (fun a c => 10 * a + digit_value c) 0

/-- The string after one optional sign character. -/
def skip_sign : List Char → List Char
  | [] => []
  | c :: t => if c = '+' ∨ c = '-' then t else c :: t

/-- The call `strtol(nptr, &endptr, 10)` as the C standard defines it, for a
`long` whose largest value is `LONG_MAX`: white space is skipped, one optional
sign is read, then the longest run of decimal digits. Returned are the value,
saturated to the range of `long`, and the string `endptr` points to. Without
any digit no conversion is done: the value is 0 and `endptr` is `nptr`. -/
def strtol (LONG_MAX : Nat) (nptr : List Char) : Int × List Char :=
  let s1 := nptr.dropWhile isspace
  let s2 := skip_sign s1
  let ds := s2.takeWhile Char.isDigit
  if ds = [] then (0, nptr)
  else
    let mag : Int := (digits_value ds : Nat)
    let v : Int := if s1.head? = some '-' then -mag else mag
    let sat : Int :=
      if v > (LONG_MAX : Int) then (LONG_MAX : Int)
      else if v < -(LONG_MAX : Int) - 1 then -(LONG_MAX : Int) - 1
      else v
    (sat, s2.dropWhile Char.isDigit)

/-- The terminator of a C string. -/
def nul : Char := '\x00'

/-- Conversion to `unsigned short` (16 bits). -/
def to_ushort (v : Int) : Nat := (v % 65536).toNat

/-- How a branch of the option switch ends: with `exit(code)`, or at its
`break` with a value for `mqtt_server_port`. -/
inductive OptResult where
  | exit (code : Nat)
  | port (mqtt_server_port : Nat)
  deriving DecidableEq, Repr

/-- The `-p` branch of the option switch (lines 155-164). `strtol` always
stores a pointer into its argument in `endptr`, so the test `endptr == NULL` is
false and the branch exits exactly when `*endptr` is not the terminator. -/
def opt_p (LONG_MAX : Nat) (optarg : List Char) : OptResult :=
  let r := strtol LONG_MAX optarg
  let mqtt_server_port := to_ushort r.1
  if r.2.headD nul ≠ nul then OptResult.exit EXIT_FAILURE else OptResult.port mqtt_server_port

/-- A non-empty decimal numeral denoting a value in 0..65535. -/
def is_port_numeral (s : List Char) : Prop :=
  s ≠ [] ∧ (∀ c ∈ s, c.isDigit = true) ∧ digits_value s ≤ 65535

instance (s : List Char) : Decidable (is_port_numeral s) := by
  unfold is_port_numeral; infer_instance

/-- Strings that are optional white space, one optional sign, then one or more
decimal digits and nothing else. -/
def numeral_shape (s : List Char) : Bool :=
  let body := skip_sign (s.dropWhile isspace)
  !body.isEmpty && body.all Char.isDigit

/-! ## A reference reader of the wire format

The wire format of the specification: the keys `time` (an unsigned integer),
`value` (a signed integer), `type` (the string `button` or `axis`) and `number`
(an unsigned integer) in that order, with no white space. -/

/-- The two kinds of event. -/
inductive Kind where
  | button
  | axis
  deriving DecidableEq, Repr

/-- The four fields a payload carries. -/
structure DecodedEvent where
  timestamp_ms : Nat
  value : Int
  kind : Kind
  index : Nat
  deriving DecidableEq, Repr

/-- The kind line 229 selects for a type bitmask. -/
def kind_of (type : Nat) : Kind :=
  if type &&& JS_EVENT_BUTTON ≠ 0 then Kind.button else Kind.axis

/-- Reads the literal `lit` at the start of the input; what follows it. -/
def expect : List Char → List Char → Option (List Char)
  | [], s => some s
  | _ :: _, [] => none
  | c :: cs, d :: s => if c = d then expect cs s else none

/-- Reads an unsigned decimal integer: one or more digits. -/
def read_nat (s : List Char) : Option (Nat × List Char) :=
  let ds := s.takeWhile Char.isDigit
  if ds = [] then none else some (digits_value ds, s.dropWhile Char.isDigit)

/-- Reads a signed decimal integer: an optional `-`, then one or more digits. -/
def read_int : List Char → Option (Int × List Char)
  | [] => none
  | c :: t =>
    if c = '-' then (read_nat t).map (fun r => (-(r.1 : Int), r.2))
    else (read_nat (c :: t)).map (fun r => ((r.1 : Int), r.2))

/-- Reads `button` or `axis`. -/
def read_kind (s : List Char) : Option (Kind × List Char) :=
  match expect "button".data s with
  | some r => some (Kind.button, r)
  | none =>
    match expect "axis".data s with
    | some r => some (Kind.axis, r)
    | none => none

/-- Reads a whole payload into its four fields; `none` when the input is not
in the wire format. -/
def parse_payload (s : List Char) : Option DecodedEvent :=
  (expect "\x7b\"time\":".data s).bind fun s1 =>
  (read_nat s1).bind fun t =>
  (expect ",\"value\":".data t.2).bind fun s2 =>
  (read_int s2).bind fun v =>
  (expect ",\"type\":\"".data v.2).bind fun s3 =>
  (read_kind s3).bind fun k =>
  (expect "\",\"number\":".data k.2).bind fun s4 =>
  (read_nat s4).bind fun n =>
  (expect "\x7d".data n.2).bind fun s5 =>
  if s5 = [] then some ⟨t.1, v.1, k.1, n.1⟩ else none

/-- The text of the wire format for the four field values: the keys in the
fixed order, each number in its shortest decimal form. -/
def wire_text (t : Nat) (v : Int) (k : Kind) (n : Nat) : String :=
  "\x7b\"time\":" ++ Nat.repr t ++ ",\"value\":" ++ Int.repr v ++ ",\"type\":\"" ++
    (match k with
      | Kind.button => "button"
      | Kind.axis => "axis") ++
    "\",\"number\":" ++ Nat.repr n ++ "\x7d"

/-! ## Inputs used in the examples -/

/-- The default configuration: topic `/joystick`, no debug output. -/
def cfg0 : Config := ⟨"/joystick".data, false⟩

/-- A messaging library whose every publish succeeds. -/
def rc_ok : Nat → Int := fun _ => MOSQ_ERR_SUCCESS

/-- An init-only record: type `JS_EVENT_INIT`, neither button nor axis. -/
def ev_init : js_event := ⟨1000, 0, JS_EVENT_INIT, 0⟩

/-- The record of scenario A. -/
def ev_a : js_event := ⟨1000, 500, 0x02, 0⟩

/-- The record of scenario B. -/
def ev_b : js_event := ⟨2000, 1, 0x01, 5⟩

/-- The record with the longest rendering. -/
def ev_max : js_event := ⟨4294967295, -32768, 0x01, 255⟩

/-- The largest `long` of an LP64 platform. -/
def LONG_MAX_64 : Nat := 2 ^ 63 - 1

/-- The largest `long` of an ILP32 platform. -/
def LONG_MAX_32 : Nat := 2 ^ 31 - 1

/-! ## The decimal conversions -/

theorem utoa_go_eq (n : Nat) : ∀ (fuel : Nat) (acc : List Char), n < fuel →
    utoa_go fuel n acc = fmt_unsigned n ++ acc := by
  induction n using Nat.strong_induction_on with
  | _ n ih =>
    intro fuel acc hf
    obtain ⟨f, rfl⟩ : ∃ f, fuel = f + 1 := ⟨fuel - 1, by omega⟩
    by_cases h : n < 10
    · simp [utoa_go, fmt_unsigned, h]
    · have hlt : n / 10 < n := by omega
      rw [fmt_unsigned]
      simp only [utoa_go, h, if_false]
      rw [ih (n / 10) hlt f _ (by omega), ih (n / 10) hlt n _ hlt]
      simp

theorem fmt_unsigned_eq (n : Nat) :
    fmt_unsigned n =
      if n < 10 then [Nat.digitChar n] else fmt_unsigned (n / 10) ++ [Nat.digitChar (n % 10)] := by
  by_cases h : n < 10
  · simp [fmt_unsigned, utoa_go, h]
  · have hlt : n / 10 < n := by omega
    rw [if_neg h]
    conv_lhs => rw [fmt_unsigned]
    simp only [utoa_go, h, if_false]
    exact utoa_go_eq (n / 10) n _ hlt

theorem digitChar_isDigit (d : Nat) (h : d < 10) : (Nat.digitChar d).isDigit = true := by
  interval_cases d <;> rfl

theorem digit_value_digitChar (d : Nat) (h : d < 10) : digit_value (Nat.digitChar d) = d := by
  interval_cases d <;> rfl

theorem toDigitsCore_eq_utoa_go (fuel : Nat) : ∀ (n : Nat) (acc : List Char),
    Nat.toDigitsCore 10 fuel n acc = utoa_go fuel n acc := by
  induction fuel with
  | zero => intro n acc; rfl
  | succ f ih =>
    intro n acc
    by_cases h : n < 10
    · have h1 : n / 10 = 0 := by omega
      have h2 : n % 10 = n := by omega
      simp [Nat.toDigitsCore, utoa_go, h, h1, h2]
    · have h1 : n / 10 ≠ 0 := by omega
      simp [Nat.toDigitsCore, utoa_go, h, h1, ih]

theorem fmt_unsigned_repr (n : Nat) : fmt_unsigned n = (Nat.repr n).data := by
  simp [Nat.repr, Nat.toDigits, fmt_unsigned, toDigitsCore_eq_utoa_go, List.asString]

theorem fmt_signed_repr (v : Int) : fmt_signed v = (Int.repr v).data := by
  cases v with
  | ofNat m =>
    have : ¬ (Int.ofNat m < 0) := by simp
    simp [fmt_signed, Int.repr, fmt_unsigned_repr]
  | negSucc m =>
    have : Int.negSucc m < 0 := Int.negSucc_lt_zero m
    simp [fmt_signed, Int.repr, fmt_unsigned_repr, this, Int.natAbs]

theorem fmt_unsigned_all_digits (n : Nat) : ∀ c ∈ fmt_unsigned n, c.isDigit = true := by
  induction n using Nat.strong_induction_on with
  | _ n ih =>
    rw [fmt_unsigned_eq]
    by_cases h : n < 10
    · simp only [h, if_true, List.mem_singleton]
      rintro c rfl
      exact digitChar_isDigit n h
    · simp only [h, if_false, List.mem_append, List.mem_singleton]
      rintro c (hc | rfl)
      · exact ih (n / 10) (by omega) c hc
      · exact digitChar_isDigit _ (Nat.mod_lt _ (by decide))

theorem fmt_unsigned_ne_nil (n : Nat) : fmt_unsigned n ≠ [] := by
  rw [fmt_unsigned_eq]
  split <;> simp

theorem digits_value_snoc (ds : List Char) (c : Char) :
    digits_value (ds ++ [c]) = 10 * digits_value ds + digit_value c := by
  simp [digits_value, List.foldl_append]

theorem digits_value_fmt_unsigned (n : Nat) : digits_value (fmt_unsigned n) = n := by
  induction n using Nat.strong_induction_on with
  | _ n ih =>
    rw [fmt_unsigned_eq]
    by_cases h : n < 10
    · simp [h, digits_value, digit_value_digitChar n h]
    · simp only [h, if_false]
      rw [digits_value_snoc, ih (n / 10) (by omega),
        digit_value_digitChar _ (Nat.mod_lt _ (by decide))]
      omega

theorem fmt_unsigned_length_le (k : Nat) : ∀ n : Nat, n < 10 ^ (k + 1) →
    (fmt_unsigned n).length ≤ k + 1 := by
  induction k with
  | zero =>
    intro n hn
    rw [fmt_unsigned_eq]
    simp at hn
    simp [hn]
  | succ k ih =>
    intro n hn
    rw [fmt_unsigned_eq]
    by_cases h : n < 10
    · simp [h]
    · have : n / 10 < 10 ^ (k + 1) := by
        rw [Nat.div_lt_iff_lt_mul (by decide)]
        calc n < 10 ^ (k + 1 + 1) := hn
          _ = 10 ^ (k + 1) * 10 := by ring
      have := ih (n / 10) this
      simp [h]
      omega

theorem takeWhile_append_stop (p : Char → Bool) (xs : List Char) (c : Char) (rest : List Char)
    (hxs : ∀ x ∈ xs, p x = true) (hc : p c = false) :
    (xs ++ c :: rest).takeWhile p = xs ∧ (xs ++ c :: rest).dropWhile p = c :: rest := by
  induction xs with
  | nil => simp [List.takeWhile, List.dropWhile, hc]
  | cons x xs ih =>
    have hx : p x = true := hxs x (by simp)
    have := ih (fun y hy => hxs y (by simp [hy]))
    simp [List.takeWhile, List.dropWhile, hx, this]

theorem takeWhile_all (p : Char → Bool) (xs : List Char)
    (hxs : ∀ x ∈ xs, p x = true) :
    xs.takeWhile p = xs ∧ xs.dropWhile p = [] := by
  induction xs with
  | nil => simp
  | cons x xs ih =>
    have hx : p x = true := hxs x (by simp)
    have := ih (fun y hy => hxs y (by simp [hy]))
    simp [List.takeWhile, List.dropWhile, hx, this]

/-! ## The filter of line 217 -/

theorem filter_cond_eq_zero (t : Nat) : filter_cond t = 0 := by
  simp [filter_cond, JS_EVENT_BUTTON, JS_EVENT_AXIS]

/-! ## One iteration, and runs of successful iterations -/

theorem read_loop_full_ok (cfg : Config) (rc : Nat → Int) (e : js_event)
    (rs : List ReadResult) (w : World) (h : rc w.published.length = MOSQ_ERR_SUCCESS) :
    read_loop cfg rc (ReadResult.full e :: rs) w = read_loop cfg rc rs (after_publish cfg e w) := by
  cases hd : cfg.debug <;>
    simp [read_loop, ReadResult.full, sizeof_js_event, filter_cond_eq_zero, mosquitto_assert,
      after_publish, h, hd]

theorem read_loop_full_fail (cfg : Config) (rc : Nat → Int) (e : js_event)
    (rs : List ReadResult) (w : World) (h : rc w.published.length ≠ MOSQ_ERR_SUCCESS) :
    read_loop cfg rc (ReadResult.full e :: rs) w =
      { after_publish cfg e w with status := Status.exited EXIT_FAILURE } := by
  cases hd : cfg.debug <;>
    simp [read_loop, ReadResult.full, sizeof_js_event, filter_cond_eq_zero, mosquitto_assert,
      after_publish, h, hd]

theorem read_loop_bad (cfg : Config) (rc : Nat → Int) (r : ReadResult)
    (rs : List ReadResult) (w : World) (h : r.ret ≠ sizeof_js_event) :
    read_loop cfg rc (r :: rs) w =
      { w with reads := w.reads + 1, status := Status.exited EXIT_FAILURE } := by
  by_cases hneg : r.ret < 0 <;> simp [read_loop, h, hneg]

theorem full_of_ret (r : ReadResult) (h : r.ret = sizeof_js_event) :
    r = ReadResult.full r.e := by
  cases r
  simp_all [ReadResult.full]

theorem read_loop_all_ok (cfg : Config) (rc : Nat → Int) (es : List js_event) :
    ∀ (rest : List ReadResult) (w : World),
      (∀ i, i < es.length → rc (w.published.length + i) = MOSQ_ERR_SUCCESS) →
      read_loop cfg rc (es.map ReadResult.full ++ rest) w =
        read_loop cfg rc rest (after_all cfg es w) := by
  induction es with
  | nil =>
    intro rest w _
    cases hd : cfg.debug <;> simp [after_all, hd]
  | cons e es ih =>
    intro rest w h
    have h0 : rc w.published.length = MOSQ_ERR_SUCCESS := by
      simpa using h 0 (by simp)
    rw [List.map_cons, List.cons_append, read_loop_full_ok cfg rc e _ w h0, ih]
    · congr 1
      cases hd : cfg.debug <;>
        simp [after_all, after_publish, hd, Nat.add_assoc, Nat.add_comm 1]
    · intro i hi
      have := h (i + 1) (by simpa using hi)
      simpa [after_publish, Nat.add_assoc, Nat.add_comm 1] using this

theorem run_all_ok (cfg : Config) (rc : Nat → Int) (es : List js_event)
    (rest : List ReadResult) (h : ∀ i, i < es.length → rc i = MOSQ_ERR_SUCCESS) :
    run cfg rc (es.map ReadResult.full ++ rest) =
      read_loop cfg rc rest (after_all cfg es World.init) := by
  unfold run
  apply read_loop_all_ok
  intro i hi
  simpa [World.init] using h i hi

theorem read_loop_published_inv (cfg : Config) (rc : Nat → Int) (P : PublishCall → Prop)
    (hP : ∀ e, P (publish_call cfg e)) (reads : List ReadResult) :
    ∀ w : World, (∀ c ∈ w.published, P c) →
      ∀ c ∈ (read_loop cfg rc reads w).published, P c := by
  induction reads with
  | nil => intro w hw; simpa [read_loop] using hw
  | cons r rs ih =>
    intro w hw
    have hstep : ∀ c ∈ (after_publish cfg r.e w).published, P c := by
      intro c hc
      simp only [after_publish, List.mem_append, List.mem_singleton] at hc
      rcases hc with hc | rfl
      · exact hw c hc
      · exact hP _
    by_cases hret : r.ret = sizeof_js_event
    · rw [full_of_ret r hret]
      by_cases hrc : rc w.published.length = MOSQ_ERR_SUCCESS
      · rw [read_loop_full_ok cfg rc _ _ _ hrc]
        exact ih _ hstep
      · rw [read_loop_full_fail cfg rc _ _ _ hrc]
        exact hstep
    · rw [read_loop_bad cfg rc r rs w hret]
      exact hw

/-! ## The length of the payload -/

theorem fmt_signed_length_le (v : Int) (h1 : -32768 ≤ v) (h2 : v ≤ 32767) :
    (fmt_signed v).length ≤ 6 := by
  have hn : v.natAbs < 10 ^ (4 + 1) := by omega
  have := fmt_unsigned_length_le 4 v.natAbs hn
  unfold fmt_signed
  split <;> simp <;> omega

theorem to_short_range (v : Int) : -32768 ≤ to_short v ∧ to_short v ≤ 32767 := by
  unfold to_short
  omega

theorem to_short_of_range (v : Int) (h1 : -32768 ≤ v) (h2 : v ≤ 32767) : to_short v = v := by
  unfold to_short
  omega

theorem type_str_length_le (e : js_event) : (type_str e).length ≤ 6 := by
  unfold type_str
  split <;> decide

theorem format_payload_length_le (e : js_event) : (format_payload e).length ≤ 63 := by
  have ht : (fmt_unsigned (to_uint e.time)).length ≤ 9 + 1 :=
    fmt_unsigned_length_le 9 _ (by unfold to_uint; omega)
  have hv := fmt_signed_length_le (to_short e.value) (to_short_range _).1 (to_short_range _).2
  have hk := type_str_length_le e
  have hn : (fmt_unsigned (to_uchar e.number)).length ≤ 2 + 1 :=
    fmt_unsigned_length_le 2 _ (by unfold to_uchar; omega)
  simp only [format_payload, List.length_append, List.length_cons, List.length_nil]
  omega

theorem isDigit_ascii (c : Char) (h : c.isDigit = true) : c.toNat < 128 := by
  simp only [Char.isDigit, Bool.and_eq_true, decide_eq_true_eq] at h
  have h2 : c.val.toNat ≤ 57 := h.2
  exact Nat.lt_of_le_of_lt h2 (by decide)

theorem format_payload_ascii (e : js_event) : ∀ c ∈ format_payload e, c.toNat < 128 := by
  have hu : ∀ n, ∀ c ∈ fmt_unsigned n, c.toNat < 128 := fun n c hc =>
    isDigit_ascii c (fmt_unsigned_all_digits n c hc)
  have hs : ∀ c ∈ fmt_signed (to_short e.value), c.toNat < 128 := by
    unfold fmt_signed
    split
    · intro c hc
      rcases List.mem_cons.mp hc with rfl | h
      · decide
      · exact hu _ c h
    · exact hu _
  have hk : ∀ c ∈ type_str e, c.toNat < 128 := by
    unfold type_str
    split <;> decide
  unfold format_payload
  simp only [List.forall_mem_append]
  exact ⟨⟨⟨⟨⟨⟨⟨⟨by decide, hu _⟩, by decide⟩, hs⟩, by decide⟩, hk⟩, by decide⟩, hu _⟩, by decide⟩

theorem publish_call_payload (cfg : Config) (e : js_event) :
    (publish_call cfg e).payload = format_payload e := by
  have := format_payload_length_le e
  simp only [publish_call, snprintf]
  exact List.take_of_length_le (by omega)

theorem publish_call_bytes (cfg : Config) (e : js_event) :
    (publish_call cfg e).bytes = format_payload e := by
  unfold PublishCall.bytes
  rw [publish_call_payload]
  simp [publish_call, snprintf]

/-! ## The payload as text -/

theorem type_str_eq (e : js_event) :
    type_str e = (match kind_of e.type with
      | Kind.button => "button"
      | Kind.axis => "axis").data := by
  unfold type_str kind_of
  split <;> rfl

theorem format_payload_eq_wire (e : js_event) (h : e.wf) :
    format_payload e = (wire_text e.time e.value (kind_of e.type) e.number).data := by
  obtain ⟨ht, hv1, hv2, _, hn⟩ := h
  have e1 : to_uint e.time = e.time := Nat.mod_eq_of_lt ht
  have e2 : to_short e.value = e.value := to_short_of_range _ hv1 hv2
  have e3 : to_uchar e.number = e.number := Nat.mod_eq_of_lt hn
  simp only [format_payload, wire_text, String.data_append, e1, e2, e3, fmt_unsigned_repr,
    fmt_signed_repr, type_str_eq]

/-! ## The claims about the read loop -/

/-- C1, the code at the failing input: the init-only record `ev_init`, whose
type 0x80 has neither the button nor the axis bit, is published (as an axis
event) when the loop reads it. -/
theorem init_record_is_published :
    ev_init.type &&& (JS_EVENT_BUTTON ||| JS_EVENT_AXIS) = 0 ∧
    (run cfg0 rc_ok [ReadResult.full ev_init]).published.map PublishCall.bytes =
      ["\x7b\"time\":1000,\"value\":0,\"type\":\"axis\",\"number\":0\x7d".data] := by
  decide

/-- C2 as stated fails: the publish call the loop makes for the record of
scenario A does not have QoS 1 with the retain flag off. -/
theorem publish_qos_retain_counterexample :
    ¬ (∀ c ∈ (run cfg0 rc_ok [ReadResult.full ev_a]).published, c.qos = 1 ∧ c.retain = false) := by
  decide

/-- C2, amended: every publish call the read loop makes, for every
configuration, every sequence of read outcomes and every behaviour of the
messaging library, has QoS 0 (at most once) and the retain flag on. -/
theorem publish_qos_retain (cfg : Config) (rc : Nat → Int) (reads : List ReadResult)
    (c : PublishCall) (hc : c ∈ (run cfg rc reads).published) :
    c.qos = 0 ∧ c.retain = true := by
  refine read_loop_published_inv cfg rc (fun c => c.qos = 0 ∧ c.retain = true) ?_ reads
    World.init ?_ c hc
  · intro e
    simp [publish_call]
  · intro c hc
    simp [World.init] at hc

/-- C2, amended, at the record of scenario A with the default configuration. -/
theorem publish_qos_retain_witness :
    (publish_call cfg0 ev_a).qos = 0 ∧ (publish_call cfg0 ev_a).retain = true :=
  publish_qos_retain cfg0 rc_ok [ReadResult.full ev_a] (publish_call cfg0 ev_a) (by decide)

/-- C3: for a timestamp, value and index in the ranges of their fields and any
type byte, so in particular one with the button or axis bit, the payload the
loop builds is the wire text of the four values, each number in its shortest
decimal form (`-` first when negative), the kind being `button` or `axis`;
scenarios A and B give the two texts of the specification. -/
theorem payload_text (cfg : Config) (t : Nat) (v : Int) (ty n : Nat)
    (ht : t < 2 ^ 32) (hv1 : -32768 ≤ v) (hv2 : v ≤ 32767) (hty : ty < 256) (hn : n < 256) :
    String.mk (publish_call cfg ⟨t, v, ty, n⟩).payload =
      "\x7b\"time\":" ++ Nat.repr t ++ ",\"value\":" ++ Int.repr v ++ ",\"type\":\"" ++
        (if ty &&& JS_EVENT_BUTTON ≠ 0 then "button" else "axis") ++
        "\",\"number\":" ++ Nat.repr n ++ "\x7d" ∧
    String.mk (publish_call cfg ev_a).payload =
      "\x7b\"time\":1000,\"value\":500,\"type\":\"axis\",\"number\":0\x7d" ∧
    String.mk (publish_call cfg ev_b).payload =
      "\x7b\"time\":2000,\"value\":1,\"type\":\"button\",\"number\":5\x7d" := by
  refine ⟨?_, ?_, ?_⟩
  · rw [publish_call_payload, format_payload_eq_wire _ ⟨ht, hv1, hv2, hty, hn⟩]
    by_cases hb : ty &&& JS_EVENT_BUTTON ≠ 0
    · rw [if_pos hb]
      simp only [wire_text, kind_of, if_pos hb]
    · rw [if_neg hb]
      simp only [wire_text, kind_of, if_neg hb]
  · rw [publish_call_payload]; decide
  · rw [publish_call_payload]; decide

/-- C3 at the example record of the wire format, with the init flag set. -/
theorem payload_text_witness :
    String.mk (publish_call cfg0 ⟨123456, -32767, 0x82, 2⟩).payload =
      "\x7b\"time\":" ++ Nat.repr 123456 ++ ",\"value\":" ++ Int.repr (-32767) ++ ",\"type\":\"" ++
        (if 0x82 &&& JS_EVENT_BUTTON ≠ 0 then "button" else "axis") ++
        "\",\"number\":" ++ Nat.repr 2 ++ "\x7d" :=
  (payload_text cfg0 123456 (-32767) 0x82 2 (by decide) (by decide) (by decide) (by decide)
    (by decide)).1

/-- C6: for every record with its fields in range, the length passed to the
publisher is the length of the rendered text, which is the wire text of the
field values; it is at most 63, hence below the 256 bytes of the buffer, so
the buffer and the bytes published are the whole text; every character is
ASCII, one byte each; the longest rendering has 63 characters. -/
theorem payload_length (cfg : Config) (e : js_event) (h : e.wf) :
    (publish_call cfg e).payloadlen = (format_payload e).length ∧
    (publish_call cfg e).payloadlen =
      (wire_text e.time e.value (kind_of e.type) e.number).length ∧
    (publish_call cfg e).payloadlen ≤ 63 ∧
    (publish_call cfg e).payloadlen < 256 ∧
    (publish_call cfg e).payload = format_payload e ∧
    String.mk (publish_call cfg e).bytes =
      wire_text e.time e.value (kind_of e.type) e.number ∧
    (∀ c ∈ (publish_call cfg e).bytes, c.toNat < 128) ∧
    String.mk (format_payload ev_max) =
      "\x7b\"time\":4294967295,\"value\":-32768,\"type\":\"button\",\"number\":255\x7d" ∧
    (format_payload ev_max).length = 63 := by
  have hlen := format_payload_length_le e
  have hw := format_payload_eq_wire e h
  refine ⟨rfl, ?_, hlen, ?_, publish_call_payload cfg e, ?_, ?_, by decide, by decide⟩
  · show (format_payload e).length = _
    rw [hw]; rfl
  · show (format_payload e).length < 256
    omega
  · rw [publish_call_bytes, hw]
  · rw [publish_call_bytes]
    exact format_payload_ascii e

/-- C6 at the record with the longest rendering. -/
theorem payload_length_witness :
    (publish_call cfg0 ev_max).payloadlen = 63 ∧ (publish_call cfg0 ev_max).payloadlen < 256 :=
  ⟨(payload_length cfg0 ev_max (by decide)).1.trans (by decide),
    (payload_length cfg0 ev_max (by decide)).2.2.2.1⟩

/-- C7: when the first `k` reads return whole records (of any type, so in
particular with the button or axis bit), the `k` publishes succeed and the next
read fails (a negative value, or a count that is not the record size), the loop
ends with `exit(EXIT_FAILURE)` after `k + 1` reads, having made exactly the `k`
publish calls of those records, in order. -/
theorem reader_failure_fail_fast (cfg : Config) (rc : Nat → Int) (es : List js_event)
    (bad : ReadResult) (rest : List ReadResult)
    (hok : ∀ i, i < es.length → rc i = MOSQ_ERR_SUCCESS)
    (hbad : bad.ret < 0 ∨ bad.ret ≠ sizeof_js_event) :
    (run cfg rc (es.map ReadResult.full ++ bad :: rest)).status = Status.exited EXIT_FAILURE ∧
    (run cfg rc (es.map ReadResult.full ++ bad :: rest)).published =
      es.map (publish_call cfg) ∧
    (run cfg rc (es.map ReadResult.full ++ bad :: rest)).published.length = es.length ∧
    (run cfg rc (es.map ReadResult.full ++ bad :: rest)).reads = es.length + 1 := by
  have hne : bad.ret ≠ sizeof_js_event := by
    rcases hbad with h | h
    · intro h'; rw [h'] at h; exact absurd h (by decide)
    · exact h
  rw [run_all_ok cfg rc es _ hok, read_loop_bad cfg rc bad rest _ hne]
  simp [after_all, World.init]

/-- C7 at scenario D: two whole reads, then a read that returns -1. -/
theorem reader_failure_fail_fast_witness :
    (run cfg0 rc_ok [ReadResult.full ev_a, ReadResult.full ev_b, ⟨-1, ev_a⟩,
      ReadResult.full ev_b]).status = Status.exited EXIT_FAILURE ∧
    (run cfg0 rc_ok [ReadResult.full ev_a, ReadResult.full ev_b, ⟨-1, ev_a⟩,
      ReadResult.full ev_b]).published = [publish_call cfg0 ev_a, publish_call cfg0 ev_b] ∧
    (run cfg0 rc_ok [ReadResult.full ev_a, ReadResult.full ev_b, ⟨-1, ev_a⟩,
      ReadResult.full ev_b]).published.length = 2 ∧
    (run cfg0 rc_ok [ReadResult.full ev_a, ReadResult.full ev_b, ⟨-1, ev_a⟩,
      ReadResult.full ev_b]).reads = 3 :=
  reader_failure_fail_fast cfg0 rc_ok [ev_a, ev_b] ⟨-1, ev_a⟩ [ReadResult.full ev_b]
    (fun _ _ => rfl) (Or.inl (by decide))

/-- C8: when the publishes of the first `k` records succeed and the publish of
the next record returns a code other than `MOSQ_ERR_SUCCESS`, the loop ends
with `exit(EXIT_FAILURE)` whatever reads would follow: it has made `k + 1`
reads and `k + 1` publish calls, the last one being the failing call, made
once; when that publish returns `MOSQ_ERR_SUCCESS` the loop goes on with the
next read. -/
theorem publish_failure_fail_fast (cfg : Config) (rc : Nat → Int) (es : List js_event)
    (e : js_event) (rest : List ReadResult)
    (hok : ∀ i, i < es.length → rc i = MOSQ_ERR_SUCCESS) :
    (rc es.length ≠ MOSQ_ERR_SUCCESS →
      (run cfg rc (es.map ReadResult.full ++ ReadResult.full e :: rest)).status =
        Status.exited EXIT_FAILURE ∧
      (run cfg rc (es.map ReadResult.full ++ ReadResult.full e :: rest)).published =
        (es ++ [e]).map (publish_call cfg) ∧
      (run cfg rc (es.map ReadResult.full ++ ReadResult.full e :: rest)).published.length =
        es.length + 1 ∧
      (run cfg rc (es.map ReadResult.full ++ ReadResult.full e :: rest)).reads =
        es.length + 1) ∧
    (rc es.length = MOSQ_ERR_SUCCESS →
      run cfg rc (es.map ReadResult.full ++ ReadResult.full e :: rest) =
        read_loop cfg rc rest
          { reads := es.length + 1,
            published := (es ++ [e]).map (publish_call cfg),
            stdout := if cfg.debug then (es ++ [e]).map debug_line else [],
            status := Status.running }) := by
  have hlen : (after_all cfg es World.init).published.length = es.length := by
    simp [after_all, World.init]
  constructor
  · intro hfail
    rw [run_all_ok cfg rc es _ hok, read_loop_full_fail cfg rc e rest _ (by rw [hlen]; exact hfail)]
    simp [after_all, after_publish, World.init]
  · intro hsucc
    rw [run_all_ok cfg rc es _ hok, read_loop_full_ok cfg rc e rest _ (by rw [hlen]; exact hsucc)]
    congr 1
    cases hd : cfg.debug <;> simp [after_all, after_publish, World.init, hd]

/-- C8 at a run whose second publish returns a failure code: the third record
is never read. -/
theorem publish_failure_fail_fast_witness :
    (run cfg0 (fun k => if k = 1 then 14 else 0)
      [ReadResult.full ev_a, ReadResult.full ev_b, ReadResult.full ev_max]).status =
        Status.exited EXIT_FAILURE ∧
    (run cfg0 (fun k => if k = 1 then 14 else 0)
      [ReadResult.full ev_a, ReadResult.full ev_b, ReadResult.full ev_max]).published =
        [publish_call cfg0 ev_a, publish_call cfg0 ev_b] ∧
    (run cfg0 (fun k => if k = 1 then 14 else 0)
      [ReadResult.full ev_a, ReadResult.full ev_b, ReadResult.full ev_max]).published.length =
        2 ∧
    (run cfg0 (fun k => if k = 1 then 14 else 0)
      [ReadResult.full ev_a, ReadResult.full ev_b, ReadResult.full ev_max]).reads = 2 :=
  (publish_failure_fail_fast cfg0 (fun k => if k = 1 then 14 else 0) [ev_a] ev_b
    [ReadResult.full ev_max] (by decide)).1 (by decide)

/-- C10: the condition of line 217 is 0 for every type byte, so `continue` is
never taken; and when every read returns a whole record and every publish
succeeds, the loop makes one publish call per record, in the order read, whose
bytes are the rendering of that record, and is still running. -/
theorem filter_never_drops (cfg : Config) (rc : Nat → Int) (es : List js_event)
    (hok : ∀ i, i < es.length → rc i = MOSQ_ERR_SUCCESS) :
    (∀ t, t < 256 → filter_cond t = 0) ∧
    (run cfg rc (es.map ReadResult.full)).published = es.map (publish_call cfg) ∧
    (run cfg rc (es.map ReadResult.full)).published.map PublishCall.bytes =
      es.map format_payload ∧
    (run cfg rc (es.map ReadResult.full)).published.length = es.length ∧
    (run cfg rc (es.map ReadResult.full)).reads = es.length ∧
    (run cfg rc (es.map ReadResult.full)).status = Status.running := by
  have h := run_all_ok cfg rc es [] hok
  rw [List.append_nil] at h
  rw [h]
  refine ⟨fun t _ => filter_cond_eq_zero t, ?_, ?_, ?_, ?_, ?_⟩
  · simp [read_loop, after_all, World.init]
  · simp [read_loop, after_all, World.init, publish_call_bytes]
  · simp [read_loop, after_all, World.init]
  · simp [read_loop, after_all, World.init]
  · simp [read_loop, after_all, World.init]

/-- C10 at three records, the first with neither the button nor the axis bit. -/
theorem filter_never_drops_witness :
    (run cfg0 rc_ok [ReadResult.full ev_init, ReadResult.full ev_a, ReadResult.full ev_b]
      ).published.map PublishCall.bytes =
      [format_payload ev_init, format_payload ev_a, format_payload ev_b] :=
  (filter_never_drops cfg0 rc_ok [ev_init, ev_a, ev_b] (fun _ _ => rfl)).2.2.1

/-! ## Reading a payload back -/

theorem expect_append (lit s : List Char) : expect lit (lit ++ s) = some s := by
  induction lit with
  | nil => cases s <;> rfl
  | cons c cs ih => simp [expect, ih]

theorem digits_span (ds rest : List Char) (hds : ∀ c ∈ ds, c.isDigit = true)
    (hrest : (rest.headD 'x').isDigit = false) :
    (ds ++ rest).takeWhile Char.isDigit = ds ∧ (ds ++ rest).dropWhile Char.isDigit = rest := by
  cases rest with
  | nil => simpa using takeWhile_all Char.isDigit ds hds
  | cons c rest => exact takeWhile_append_stop Char.isDigit ds c rest hds hrest

theorem read_nat_fmt (n : Nat) (rest : List Char) (hrest : (rest.headD 'x').isDigit = false) :
    read_nat (fmt_unsigned n ++ rest) = some (n, rest) := by
  obtain ⟨h1, h2⟩ := digits_span (fmt_unsigned n) rest (fmt_unsigned_all_digits n) hrest
  simp [read_nat, h1, h2, fmt_unsigned_ne_nil, digits_value_fmt_unsigned]

theorem read_int_fmt (v : Int) (rest : List Char) (hrest : (rest.headD 'x').isDigit = false) :
    read_int (fmt_signed v ++ rest) = some (v, rest) := by
  unfold fmt_signed
  by_cases hv : v < 0
  · simp only [hv, if_true, List.cons_append, read_int, read_nat_fmt _ _ hrest, Option.map_some']
    have : -((v.natAbs : Nat) : Int) = v := by omega
    show some (-((v.natAbs : Nat) : Int), rest) = some (v, rest)
    rw [this]
  · simp only [hv, if_false]
    have hne := fmt_unsigned_ne_nil v.natAbs
    have hall := fmt_unsigned_all_digits v.natAbs
    have hrd := read_nat_fmt v.natAbs rest hrest
    cases hf : fmt_unsigned v.natAbs with
    | nil => exact absurd hf hne
    | cons d tl =>
      rw [hf] at hall hrd
      have hd : d ≠ '-' := by
        intro h
        have := hall d (by simp)
        rw [h] at this
        exact absurd this (by decide)
      have hnat : ((v.natAbs : Nat) : Int) = v := by omega
      simp only [List.cons_append] at hrd ⊢
      simp [read_int, hd, hrd, hnat]

theorem read_kind_type_str (e : js_event) (rest : List Char) :
    read_kind (type_str e ++ rest) = some (kind_of e.type, rest) := by
  unfold type_str kind_of
  split
  · simp only [read_kind, expect_append]
  · have h : expect "button".data ("axis".data ++ rest) = none := rfl
    simp only [read_kind, h, expect_append]

theorem parse_format_payload (e : js_event) :
    parse_payload (format_payload e) =
      some ⟨to_uint e.time, to_short e.value, kind_of e.type, to_uchar e.number⟩ := by
  unfold parse_payload format_payload
  simp only [List.append_assoc]
  rw [expect_append, Option.some_bind, read_nat_fmt, Option.some_bind, expect_append,
    Option.some_bind, read_int_fmt, Option.some_bind, expect_append, Option.some_bind,
    read_kind_type_str, Option.some_bind, expect_append, Option.some_bind,
    read_nat_fmt, Option.some_bind]
  · simp [expect]
  all_goals rfl

/-- C4: the type field of the payload is `button` whenever the button bit of
the type bitmask is set, whatever the other bits (axis, init) are, and `axis`
whenever the axis bit is set and the button bit is clear. -/
theorem type_field (cfg : Config) (e : js_event) :
    (e.type &&& JS_EVENT_BUTTON ≠ 0 →
      type_str e = "button".data ∧
      (parse_payload (publish_call cfg e).bytes).map DecodedEvent.kind = some Kind.button) ∧
    (e.type &&& JS_EVENT_AXIS ≠ 0 ∧ e.type &&& JS_EVENT_BUTTON = 0 →
      type_str e = "axis".data ∧
      (parse_payload (publish_call cfg e).bytes).map DecodedEvent.kind = some Kind.axis) := by
  rw [publish_call_bytes, parse_format_payload]
  constructor
  · intro h
    simp [type_str, kind_of, h]
  · rintro ⟨_, h⟩
    simp [type_str, kind_of, h]

/-- C4 at type bytes 0x83 (init, axis and button bits) and 0x82 (init and axis
bits). -/
theorem type_field_witness :
    (type_str ⟨7, -3, 0x83, 4⟩ = "button".data ∧
      (parse_payload (publish_call cfg0 ⟨7, -3, 0x83, 4⟩).bytes).map DecodedEvent.kind =
        some Kind.button) ∧
    (type_str ⟨7, -3, 0x82, 4⟩ = "axis".data ∧
      (parse_payload (publish_call cfg0 ⟨7, -3, 0x82, 4⟩).bytes).map DecodedEvent.kind =
        some Kind.axis) :=
  ⟨(type_field cfg0 ⟨7, -3, 0x83, 4⟩).1 (by decide),
    (type_field cfg0 ⟨7, -3, 0x82, 4⟩).2 (by decide)⟩

/-- C5: for every record with its fields in range, reading the published
payload back gives exactly its timestamp, value, kind and index; hence two
records with the same payload have the same four fields; both kinds occur. -/
theorem payload_round_trip (cfg : Config) (e : js_event) (h : e.wf) :
    parse_payload (publish_call cfg e).bytes =
      some ⟨e.time, e.value, kind_of e.type, e.number⟩ ∧
    (∀ e2 : js_event, e2.wf → format_payload e2 = format_payload e →
      e2.time = e.time ∧ e2.value = e.value ∧ kind_of e2.type = kind_of e.type ∧
        e2.number = e.number) ∧
    kind_of JS_EVENT_BUTTON = Kind.button ∧ kind_of JS_EVENT_AXIS = Kind.axis := by
  have conv : ∀ x : js_event, x.wf →
      parse_payload (format_payload x) = some ⟨x.time, x.value, kind_of x.type, x.number⟩ := by
    intro x hx
    obtain ⟨ht, hv1, hv2, _, hn⟩ := hx
    rw [parse_format_payload]
    have e1 : to_uint x.time = x.time := Nat.mod_eq_of_lt ht
    have e2 : to_short x.value = x.value := to_short_of_range _ hv1 hv2
    have e3 : to_uchar x.number = x.number := Nat.mod_eq_of_lt hn
    rw [e1, e2, e3]
  refine ⟨?_, ?_, by decide, by decide⟩
  · rw [publish_call_bytes]
    exact conv e h
  · intro e2 h2 heq
    have p1 := conv e h
    have p2 := conv e2 h2
    rw [heq, p1] at p2
    simp only [Option.some.injEq, DecodedEvent.mk.injEq] at p2
    obtain ⟨a, b, c, d⟩ := p2
    exact ⟨a.symm, b.symm, c.symm, d.symm⟩

/-- C5 at the record with the longest rendering, whose value is negative. -/
theorem payload_round_trip_witness :
    parse_payload (publish_call cfg0 ev_max).bytes =
      some ⟨4294967295, -32768, Kind.button, 255⟩ :=
  (payload_round_trip cfg0 ev_max (by decide)).1

/-! ## The `-p` branch -/

theorem isspace_of_isDigit (c : Char) (h : c.isDigit = true) : isspace c = false := by
  cases hs : isspace c with
  | false => rfl
  | true =>
    simp only [isspace, Bool.or_eq_true, decide_eq_true_eq] at hs
    rcases hs with ((((rfl | rfl) | rfl) | rfl) | rfl) | rfl <;> exact absurd h (by decide)

theorem not_sign_of_isDigit (c : Char) (h : c.isDigit = true) : ¬ (c = '+' ∨ c = '-') := by
  rintro (rfl | rfl) <;> exact absurd h (by decide)

theorem mem_of_mem_skip_sign (s : List Char) (c : Char) (h : c ∈ skip_sign s) : c ∈ s := by
  cases s with
  | nil => simp [skip_sign] at h
  | cons d t =>
    simp only [skip_sign] at h
    split at h
    · exact List.mem_cons_of_mem _ h
    · exact h

theorem headD_ne_nul (s : List Char) (hne : s ≠ []) (hnul : nul ∉ s) : s.headD nul ≠ nul := by
  cases s with
  | nil => exact absurd rfl hne
  | cons c t =>
    intro h
    apply hnul
    simp only [List.headD_cons] at h
    simp [h]

theorem strtol_digits (L : Nat) (ds : List Char) (hne : ds ≠ [])
    (hall : ∀ c ∈ ds, c.isDigit = true) :
    strtol L ds = (min ((digits_value ds : Nat) : Int) (L : Int), []) := by
  cases ds with
  | nil => exact absurd rfl hne
  | cons d tl =>
    have hd : d.isDigit = true := hall d (by simp)
    have h1 : (d :: tl).dropWhile isspace = d :: tl :=
      List.dropWhile_cons_of_neg (by simp [isspace_of_isDigit d hd])
    have h2 : skip_sign (d :: tl) = d :: tl := by
      simp only [skip_sign, if_neg (not_sign_of_isDigit d hd)]
    obtain ⟨h3, h4⟩ := takeWhile_all Char.isDigit (d :: tl) hall
    have h5 : d ≠ '-' := fun h => not_sign_of_isDigit d hd (Or.inr h)
    unfold strtol
    simp only [h1, h2, h3, h4, List.head?_cons, Option.some.injEq, h5, if_false]
    rw [if_neg (by simp)]
    congr 1
    have : (0 : Int) ≤ ((digits_value (d :: tl) : Nat) : Int) := Int.ofNat_nonneg _
    split
    · omega
    · split <;> omega

theorem strtol_minus_digits (L : Nat) (ds : List Char) (hne : ds ≠ [])
    (hall : ∀ c ∈ ds, c.isDigit = true) :
    strtol L ('-' :: ds) = (max (-((digits_value ds : Nat) : Int)) (-(L : Int) - 1), []) := by
  have h1 : ('-' :: ds).dropWhile isspace = '-' :: ds :=
    List.dropWhile_cons_of_neg (by decide)
  have h2 : skip_sign ('-' :: ds) = ds := by simp [skip_sign]
  obtain ⟨h3, h4⟩ := takeWhile_all Char.isDigit ds hall
  unfold strtol
  simp only [h1, h2, h3, h4, List.head?_cons, if_true, if_neg hne]
  congr 1
  have : (0 : Int) ≤ ((digits_value ds : Nat) : Int) := Int.ofNat_nonneg _
  split
  · omega
  · split <;> omega

theorem opt_p_of_strtol (L : Nat) (s : List Char) (v : Int) (h : strtol L s = (v, [])) :
    opt_p L s = OptResult.port (to_ushort v) := by
  simp [opt_p, h]

/-- The empty argument: `strtol` converts nothing and leaves `endptr` at the
terminator, so the branch does not exit and the port becomes 0. -/
theorem opt_p_empty (L : Nat) : opt_p L [] = OptResult.port 0 := by
  simp [opt_p, strtol, skip_sign, to_ushort]

theorem opt_p_exit_iff (L : Nat) (s : List Char) (hne : s ≠ []) (hnul : nul ∉ s) :
    opt_p L s = OptResult.exit EXIT_FAILURE ↔ numeral_shape s = false := by
  have hsub : ∀ c ∈ skip_sign (s.dropWhile isspace), c ∈ s := fun c hc =>
    (List.dropWhile_sublist isspace).subset (mem_of_mem_skip_sign _ c hc)
  generalize hb : skip_sign (s.dropWhile isspace) = body at hsub
  have hshape : numeral_shape s = (!body.isEmpty && body.all Char.isDigit) := by
    simp only [numeral_shape, hb]
  by_cases hds : body.takeWhile Char.isDigit = []
  · have h1 : strtol L s = (0, s) := by
      simp only [strtol, hb, hds, if_true]
    have h3 : (!body.isEmpty && body.all Char.isDigit) = false := by
      cases body with
      | nil => rfl
      | cons c t =>
        have hc : c.isDigit = false := by
          cases hcd : c.isDigit with
          | false => rfl
          | true => simp [List.takeWhile, hcd] at hds
        simp [hc]
    have h2 := headD_ne_nul s hne hnul
    rw [hshape, h3]
    simp only [opt_p, h1, if_pos h2]
  · have h1 : (strtol L s).2 = body.dropWhile Char.isDigit := by
      simp only [strtol, hb, hds, if_false]
    have hbne : body ≠ [] := by
      intro h; rw [h] at hds; exact hds rfl
    have hemp : body.isEmpty = false := by
      cases body with
      | nil => exact absurd rfl hbne
      | cons _ _ => rfl
    rw [hshape, hemp]
    by_cases hall : ∀ x ∈ body, Char.isDigit x = true
    · have hdrop : body.dropWhile Char.isDigit = [] := List.dropWhile_eq_nil_iff.mpr hall
      have hA : body.all Char.isDigit = true := List.all_eq_true.mpr hall
      simp [opt_p, h1, hdrop, hA]
    · have hdrop : body.dropWhile Char.isDigit ≠ [] := fun h =>
        hall (List.dropWhile_eq_nil_iff.mp h)
      have hA : body.all Char.isDigit = false := by
        cases hq : body.all Char.isDigit with
        | false => rfl
        | true => exact absurd (List.all_eq_true.mp hq) hall
      have hn2 : nul ∉ body.dropWhile Char.isDigit := fun h =>
        hnul (hsub _ ((List.dropWhile_sublist Char.isDigit).subset h))
      have h2 := headD_ne_nul _ hdrop hn2
      simp only [opt_p, h1, if_pos h2, hA, Bool.not_false, Bool.and_false]

/-- C9 as stated fails: `70000` and `-1` are not decimal numerals denoting a
value in 0..65535, yet the `-p` branch does not exit for them; the port becomes
4464 and 65535. -/
theorem port_out_of_range_counterexample :
    ¬ is_port_numeral "70000".data ∧
    opt_p LONG_MAX_64 "70000".data ≠ OptResult.exit EXIT_FAILURE ∧
    opt_p LONG_MAX_64 "70000".data = OptResult.port 4464 ∧
    opt_p LONG_MAX_32 "70000".data = OptResult.port 4464 ∧
    ¬ is_port_numeral "-1".data ∧
    opt_p LONG_MAX_64 "-1".data = OptResult.port 65535 ∧
    opt_p LONG_MAX_32 "-1".data = OptResult.port 65535 := by
  decide

/-- C9, amended: with a `long` that holds 65535, the `-p` branch exits with
failure for a non-empty argument exactly when the argument is not optional
white space, an optional sign and one or more digits; for a non-empty decimal
numeral denoting a value in 0..65535 the port is exactly that value; a run of
digits of any value is accepted, the port being the value, saturated at
`LONG_MAX`, modulo 2^16, and likewise with a `-` in front. -/
theorem opt_p_spec (L : Nat) (hL : 65535 ≤ L) (s : List Char) :
    (s ≠ [] → nul ∉ s →
      (opt_p L s = OptResult.exit EXIT_FAILURE ↔ numeral_shape s = false)) ∧
    (is_port_numeral s → opt_p L s = OptResult.port (digits_value s)) ∧
    (s ≠ [] → (∀ c ∈ s, c.isDigit = true) →
      opt_p L s = OptResult.port (min (digits_value s) L % 65536)) ∧
    (s ≠ [] → (∀ c ∈ s, c.isDigit = true) →
      opt_p L ('-' :: s) =
        OptResult.port (to_ushort (max (-((digits_value s : Nat) : Int)) (-(L : Int) - 1)))) := by
  have hdig : s ≠ [] → (∀ c ∈ s, c.isDigit = true) →
      opt_p L s = OptResult.port (min (digits_value s) L % 65536) := by
    intro hne hall
    rw [opt_p_of_strtol L s _ (strtol_digits L s hne hall)]
    congr 1
    simp only [to_ushort]
    omega
  refine ⟨opt_p_exit_iff L s, ?_, hdig, ?_⟩
  · rintro ⟨hne, hall, hle⟩
    rw [hdig hne hall]
    congr 1
    omega
  · intro hne hall
    exact opt_p_of_strtol L _ _ (strtol_minus_digits L s hne hall)

/-- C9, amended, at the arguments `8080`, `12x` and `abc` on an LP64 platform. -/
theorem opt_p_spec_witness :
    opt_p LONG_MAX_64 "8080".data = OptResult.port 8080 ∧
    opt_p LONG_MAX_64 "12x".data = OptResult.exit EXIT_FAILURE ∧
    opt_p LONG_MAX_64 "abc".data = OptResult.exit EXIT_FAILURE :=
  ⟨(opt_p_spec LONG_MAX_64 (by decide) "8080".data).2.1 (by decide),
    ((opt_p_spec LONG_MAX_64 (by decide) "12x".data).1 (by decide) (by decide)).2 (by decide),
    ((opt_p_spec LONG_MAX_64 (by decide) "abc".data).1 (by decide) (by decide)).2 (by decide)⟩

end Js2mqtt
